import Mathlib

/-!
The native entry point `main` of `src/main.cpp` (cpphs).

The whole program is one straight-line function:

    int main(int argc, char** argv) {
      hs_init(&argc, &argv);
      std::cout << "Hello from C++\n";
      helloFromHaskell();
      std::cout << "2 x 6 = " << timesSix(2) << "\n";
      hs_exit();
      return 0;
    }

It is embedded as a state-passing function on a `World`. The world holds the trace
of the calls and insertions in program order, and the text that has reached the
standard output descriptor. `main` never flushes, and the text of `std::cout` and
the text of the foreign runtime wait in two separate buffers in front of the same
descriptor: each is handed over as its buffering mode allows, the rest of the
foreign text when `hs_exit` runs and the rest of the text of `std::cout` when the
process exits after `main` has returned. So the order of the text on the
descriptor can differ from the order of the statements.

The four functions `hs_init`, `helloFromHaskell`, `timesSix` and `hs_exit` are
declared in headers that are not part of `src/`; their behaviour is a parameter
(`Foreign`).
-/

namespace Cpphs

/-! ## Data model -/

/-- One observable step of a run of `main`: a call of one of the four imported
functions, or one `operator<<` on `std::cout` performed by `main` itself. -/
inductive Event where
  /-- The call `hs_init(&argc, &argv)`, with the values the two pointers point at. -/
  | hs_init (argc : Int) (argv : List String)
  /-- One `std::cout << s` executed by `main`. -/
  | write (s : String)
  /-- The call `helloFromHaskell()`. -/
  | helloFromHaskell
  /-- The call `timesSix(a1)`. -/
  | timesSix (a1 : Int)
  /-- The call `hs_exit()`. -/
  | hs_exit
  deriving DecidableEq

/-- The imported functions, taken as a parameter: their declarations
(`Hello_stub.h`, `TimesSix_stub.h`, the runtime header) and their bodies are not in
`src/`. As at their call sites in `main`: `hs_init` receives the argument count and
vector by pointer and may overwrite both (its result is the pair it leaves
behind), `helloFromHaskell` takes no argument and emits a text on the standard
output stream of the foreign runtime, `timesSix` takes one integer and returns one
integer, and `hs_exit` takes and returns nothing. Each call returns to `main`, and
of the four only `helloFromHaskell` emits text. -/
structure Foreign where
  hs_init : Int → List String → Int × List String
  helloFromHaskell : String
  timesSix : Int → Int

/-- The local variables of `main`: its two parameters. -/
structure Frame where
  argc : Int
  argv : List String
  deriving DecidableEq

/-- How an output stream hands its text to the descriptor: at once; up to the last
newline written (a terminal); or only when the stream is flushed (a file or a
pipe, for texts below the capacity of the buffer). -/
inductive Buffering where
  | unbuffered
  | line
  | full
  deriving DecidableEq

/-- An output stream in front of the descriptor: its buffering mode and the text
it has not handed over yet. -/
structure OutStream where
  mode : Buffering
  pending : String
  deriving DecidableEq

/-- The observable state of the process: the text that has reached the standard
output descriptor, the stream `std::cout`, the standard output stream of the
foreign runtime, and the events so far in program order. -/
structure World where
  stdout : String
  cout : OutStream
  hs : OutStream
  trace : List Event
  deriving DecidableEq

/-- The state of the process when `main` is entered: nothing written, both streams
empty, in the given buffering modes. -/
def World.start (cm hm : Buffering) : World :=
  ⟨"", ⟨cm, ""⟩, ⟨hm, ""⟩, []⟩

/-- The order in which the operands of `std::cout << "2 x 6 = " << timesSix(2)` are
evaluated. Since C++17 the left operand of `<<` is sequenced first; before, the
call `timesSix(2)` may also be evaluated before the first insertion. -/
inductive EvalOrder where
  | leftToRight
  | callFirst
  deriving DecidableEq

/-! ## Operations -/

/-- The text `operator<<` inserts for an integer under the default formatting
flags: decimal digits, with a leading minus sign for a negative value. -/
def showInt (r : Int) : String :=
  if r < 0 then "-" ++ Nat.repr r.natAbs else Nat.repr r.natAbs

/-- The part of a text after its last newline; the whole text when it has none. -/
def afterLastNewline (p : List Char) : List Char :=
  (p.reverse.takeWhile (fun c => c != '\n')).reverse

/-- The part of the buffered text `p` that stays in the buffer. -/
def Buffering.held : Buffering → String → String
  | Buffering.unbuffered, _ => ""
  | Buffering.line, p => ⟨afterLastNewline p.data⟩
  | Buffering.full, p => p

/-- The part of the buffered text `p` that goes to the descriptor: what comes
before the part that stays. -/
def Buffering.handed (b : Buffering) (p : String) : String :=
  ⟨p.data.take (p.data.length - (b.held p).data.length)⟩

/-- The text `s` is put into a stream: the text that goes to the descriptor, and
the stream afterwards. -/
def OutStream.put (st : OutStream) (s : String) : String × OutStream :=
  (st.mode.handed (st.pending ++ s), { st with pending := st.mode.held (st.pending ++ s) })

/-- One insertion `std::cout << s` by `main`. -/
def cout (s : String) (w : World) : World :=
  { w with
    stdout := w.stdout ++ (w.cout.put s).1
    cout := (w.cout.put s).2
    trace := w.trace ++ [Event.write s] }

/-- The call `hs_init(&argc, &argv)`: the callee sees the current values of the two
locals and leaves its own values in them. -/
def call_hs_init (F : Foreign) (fr : Frame) (w : World) : Frame × World :=
  let out := F.hs_init fr.argc fr.argv
  (⟨out.1, out.2⟩, { w with trace := w.trace ++ [Event.hs_init fr.argc fr.argv] })

/-- The call `helloFromHaskell()`: the callee puts its text into the standard
output stream of the foreign runtime. -/
def call_helloFromHaskell (F : Foreign) (w : World) : World :=
  { w with
    stdout := w.stdout ++ (w.hs.put F.helloFromHaskell).1
    hs := (w.hs.put F.helloFromHaskell).2
    trace := w.trace ++ [Event.helloFromHaskell] }

/-- The call `timesSix(a1)`: the callee returns an integer. -/
def call_timesSix (F : Foreign) (a1 : Int) (w : World) : Int × World :=
  (F.timesSix a1, { w with trace := w.trace ++ [Event.timesSix a1] })

/-- The call `hs_exit()`: the foreign runtime hands over what its standard output
stream still holds and shuts down. -/
def call_hs_exit (w : World) : World :=
  { w with
    stdout := w.stdout ++ w.hs.pending
    hs := { w.hs with pending := "" }
    trace := w.trace ++ [Event.hs_exit] }

/-- The statement `std::cout << "2 x 6 = " << timesSix(2) << "\n";`. -/
def productStatement (F : Foreign) (ord : EvalOrder) (w : World) : World :=
  match ord with
  | EvalOrder.leftToRight =>
    let w1 := cout "2 x 6 = " w
    let rw := call_timesSix F 2 w1
    cout "\n" (cout (showInt rw.1) rw.2)
  | EvalOrder.callFirst =>
    let rw := call_timesSix F 2 w
    let w1 := cout "2 x 6 = " rw.2
    cout "\n" (cout (showInt rw.1) w1)

/-- The function `main` of `src/main.cpp`: the exit status it returns and the world
it leaves behind. -/
def main (F : Foreign) (ord : EvalOrder) (argc : Int) (argv : List String)
    (w : World) : Int × World :=
  let fw := call_hs_init F ⟨argc, argv⟩ w
  let w1 := cout "Hello from C++\n" fw.2
  let w2 := call_helloFromHaskell F w1
  let w3 := productStatement F ord w2
  let w4 := call_hs_exit w3
  (0, w4)

/-- The end of the process after `main` has returned: what `std::cout` still holds
goes to the descriptor. -/
def atExit (w : World) : World :=
  { w with stdout := w.stdout ++ w.cout.pending, cout := { w.cout with pending := "" } }

/-- A whole run of the program: `main` entered at process start, with `std::cout`
in mode `cm` and the foreign stream in mode `hm`, and the process ended after
`main` has returned. -/
def run (F : Foreign) (ord : EvalOrder) (cm hm : Buffering) (argc : Int)
    (argv : List String) : Int × World :=
  ((main F ord argc argv (World.start cm hm)).1,
    atExit (main F ord argc argv (World.start cm hm)).2)

/-! ## Lines of text and kinds of events -/

/-- Cuts a text at its newline characters; `cur` is the line being read. A last
segment without a newline after it counts as a line when it is not empty. -/
def linesAux (cur : List Char) : List Char → List (List Char)
  | [] => if cur = [] then [] else [cur]
  | c :: cs => if c = '\n' then cur :: linesAux [] cs else linesAux (cur ++ [c]) cs

/-- The lines of a text, without their newline characters. -/
def lines (s : String) : List String :=
  (linesAux [] s.data).map String.mk

/-- A text without its last character. -/
def chomp (s : String) : String :=
  ⟨s.data.dropLast⟩

/-- The number a text of decimal digits stands for, read from the left. -/
def readNat (cs : List Char) : Nat :=
  cs.foldl (fun a c => 10 * a + (c.toNat - 48)) 0

/-- The integer a decimal text stands for: an optional minus sign, then digits. -/
def readInt (s : String) : Int :=
  if s.data.head? = some '-' then -(readNat s.data.tail : Int) else (readNat s.data : Int)

/-- A text that is exactly one line: it has one newline character, at its end. -/
def isOneLine (s : String) : Bool :=
  decide (s.data.count '\n' = 1) && decide (s.data.getLast? = some '\n')

/-- The event is a call of `hs_init`. -/
def Event.isInit : Event → Bool
  | Event.hs_init _ _ => true
  | _ => false

/-- The event is a call of `hs_exit`. -/
def Event.isExit : Event → Bool
  | Event.hs_exit => true
  | _ => false

/-- The event is a call of `helloFromHaskell`. -/
def Event.isHello : Event → Bool
  | Event.helloFromHaskell => true
  | _ => false

/-- The event is a call of `timesSix`. -/
def Event.isTimesSix : Event → Bool
  | Event.timesSix _ => true
  | _ => false

/-- The event is an insertion into `std::cout` by `main`. -/
def Event.isWrite : Event → Bool
  | Event.write _ => true
  | _ => false

/-- The event is a call of one of the imported functions. -/
def Event.isForeign (e : Event) : Bool :=
  !e.isWrite

/-- The text on the standard output descriptor after a whole run. -/
def output (F : Foreign) (ord : EvalOrder) (cm hm : Buffering) (argc : Int)
    (argv : List String) : String :=
  (run F ord cm hm argc argv).2.stdout

/-- The events of a whole run, in program order. -/
def events (F : Foreign) (ord : EvalOrder) (cm hm : Buffering) (argc : Int)
    (argv : List String) : List Event :=
  (run F ord cm hm argc argv).2.trace

/-- The exit status of a whole run: the value `main` returns. -/
def exitStatus (F : Foreign) (ord : EvalOrder) (cm hm : Buffering) (argc : Int)
    (argv : List String) : Int :=
  (run F ord cm hm argc argv).1

/-- A sample environment: `hs_init` leaves the arguments as they are, the greeting is
one line, and `timesSix` multiplies by six. -/
def sampleForeign : Foreign :=
  ⟨fun c v => (c, v), "Hello from Haskell\n", fun n => 6 * n⟩

/-- An environment whose `timesSix` returns a negative number. -/
def negativeForeign : Foreign :=
  ⟨fun c v => (c, v), "Hello from Haskell\n", fun _ => -7⟩

/-- An environment whose greeting is empty and whose `timesSix` multiplies by six. -/
def silentForeign : Foreign :=
  ⟨fun c v => (c, v), "", fun n => 6 * n⟩

/-- An environment whose greeting is two lines and whose `timesSix` returns 5. -/
def twoLineForeign : Foreign :=
  ⟨fun c v => (c, v), "Hello\nfrom Haskell\n", fun _ => 5⟩

/-! ## Lemmas on the rendering of integers and on lines -/

theorem digitChar_ne_newline : ∀ d : Nat, d < 10 → Nat.digitChar d ≠ '\n' := by
  decide

theorem digitChar_ne_minus : ∀ d : Nat, d < 10 → Nat.digitChar d ≠ '-' := by
  decide

theorem digitChar_value : ∀ d : Nat, d < 10 → (Nat.digitChar d).toNat - 48 = d := by
  decide

theorem toDigitsCore_not_mem (c : Char) (hc : ∀ d : Nat, d < 10 → Nat.digitChar d ≠ c)
    (f : Nat) :
    ∀ (n : Nat) (ds : List Char), c ∉ ds → c ∉ Nat.toDigitsCore 10 f n ds := by
  induction f with
  | zero => intro n ds h; simpa [Nat.toDigitsCore] using h
  | succ f ih =>
    intro n ds h
    have hd : c ∉ Nat.digitChar (n % 10) :: ds := by
      simp only [List.mem_cons, not_or]
      exact ⟨fun e => hc _ (Nat.mod_lt n (by decide)) e.symm, h⟩
    simp only [Nat.toDigitsCore]
    split_ifs
    · exact hd
    · exact ih _ _ hd

theorem repr_data (n : Nat) : (Nat.repr n).data = Nat.toDigitsCore 10 (n + 1) n [] := rfl

theorem repr_no_newline (n : Nat) : '\n' ∉ (Nat.repr n).data := by
  rw [repr_data]
  exact toDigitsCore_not_mem _ digitChar_ne_newline _ _ _ (List.not_mem_nil _)

theorem repr_no_minus (n : Nat) : '-' ∉ (Nat.repr n).data := by
  rw [repr_data]
  exact toDigitsCore_not_mem _ digitChar_ne_minus _ _ _ (List.not_mem_nil _)

theorem showInt_no_newline (r : Int) : '\n' ∉ (showInt r).data := by
  unfold showInt
  split_ifs
  · rw [String.data_append, List.mem_append, not_or]
    exact ⟨by decide, repr_no_newline _⟩
  · exact repr_no_newline _

theorem foldl_toDigitsCore (f : Nat) :
    ∀ (n : Nat) (ds : List Char), n < f →
      (Nat.toDigitsCore 10 f n ds).foldl (fun a c => 10 * a + (c.toNat - 48)) 0
        = ds.foldl (fun a c => 10 * a + (c.toNat - 48)) n := by
  induction f with
  | zero => intro n ds h; omega
  | succ f ih =>
    intro n ds h
    have hv := digitChar_value (n % 10) (Nat.mod_lt n (by decide))
    simp only [Nat.toDigitsCore]
    split_ifs with h0
    · have hn : n % 10 = n := by omega
      rw [List.foldl_cons, Nat.mul_zero, Nat.zero_add, hv, hn]
    · have hlt : n / 10 < f := by omega
      rw [ih _ _ hlt]
      have hn : 10 * (n / 10) + n % 10 = n := Nat.div_add_mod n 10
      simp only [List.foldl_cons, hv, hn]

theorem readNat_repr (n : Nat) : readNat (Nat.repr n).data = n := by
  rw [repr_data]
  unfold readNat
  rw [foldl_toDigitsCore _ _ _ (Nat.lt_succ_self n)]
  rfl

theorem readInt_showInt (r : Int) : readInt (showInt r) = r := by
  unfold showInt
  split_ifs with h
  · have hd : ("-" ++ Nat.repr r.natAbs).data = '-' :: (Nat.repr r.natAbs).data := by
      rw [String.data_append]; rfl
    unfold readInt
    rw [hd]
    simp only [List.head?_cons, if_true, List.tail_cons, readNat_repr]
    omega
  · have hm := repr_no_minus r.natAbs
    have hh : (Nat.repr r.natAbs).data.head? ≠ some '-' := by
      intro e
      exact hm (List.mem_of_mem_head? e)
    unfold readInt
    rw [if_neg hh, readNat_repr]
    omega

theorem linesAux_line (a : List Char) (h : '\n' ∉ a) :
    ∀ (cur rest : List Char), linesAux cur (a ++ '\n' :: rest) = (cur ++ a) :: linesAux [] rest := by
  induction a with
  | nil => intro cur rest; simp [linesAux]
  | cons c a ih =>
    intro cur rest
    simp only [List.mem_cons, not_or] at h
    have hc : c ≠ '\n' := fun e => h.1 e.symm
    simp [linesAux, hc, ih h.2]

theorem isOneLine_split (s : String) (h : isOneLine s = true) :
    '\n' ∉ (chomp s).data ∧ s = chomp s ++ "\n" := by
  simp only [isOneLine, Bool.and_eq_true, decide_eq_true_eq] at h
  obtain ⟨hc, hl⟩ := h
  have hd : s.data = s.data.dropLast ++ ['\n'] := (List.dropLast_append_getLast? _ hl).symm
  refine ⟨?_, ?_⟩
  · rw [hd, List.count_append] at hc
    have h1 : List.count '\n' ['\n'] = 1 := by decide
    rw [h1] at hc
    have h0 : List.count '\n' s.data.dropLast = 0 := by omega
    exact List.count_eq_zero.mp h0
  · apply String.ext
    rw [String.data_append]
    exact hd

/-! ## Lemmas on buffering -/

theorem takeWhile_append_stop {α : Type} (p : α → Bool) (l : List α) (x : α) (r : List α)
    (hl : ∀ c ∈ l, p c = true) (hx : p x = false) :
    (l ++ x :: r).takeWhile p = l := by
  induction l with
  | nil => simp [List.takeWhile, hx]
  | cons a l ih =>
    have ha : p a = true := hl a (List.mem_cons_self _ _)
    have hl2 : ∀ c ∈ l, p c = true := fun c hc => hl c (List.mem_cons_of_mem _ hc)
    simp [List.takeWhile, ha, ih hl2]

theorem afterLastNewline_split (a b : List Char) (hb : '\n' ∉ b) :
    afterLastNewline (a ++ '\n' :: b) = b := by
  unfold afterLastNewline
  have hr : (a ++ '\n' :: b).reverse = b.reverse ++ '\n' :: a.reverse := by simp
  rw [hr, takeWhile_append_stop _ _ _ _ _ (by decide), List.reverse_reverse]
  intro c hc
  have hcb : c ∈ b := List.mem_reverse.mp hc
  have hne : c ≠ '\n' := fun e => hb (e ▸ hcb)
  simpa using hne

theorem afterLastNewline_none (p : List Char) (hp : '\n' ∉ p) : afterLastNewline p = p := by
  unfold afterLastNewline
  have h : p.reverse.takeWhile (fun c => c != '\n') = p.reverse := by
    rw [List.takeWhile_eq_self_iff]
    intro c hc
    have hcp : c ∈ p := List.mem_reverse.mp hc
    have hne : c ≠ '\n' := fun e => hp (e ▸ hcp)
    simpa using hne
  rw [h, List.reverse_reverse]

theorem afterLastNewline_suffix (p : List Char) : afterLastNewline p <:+ p := by
  unfold afterLastNewline
  have h := List.takeWhile_prefix (fun c => c != '\n') (l := p.reverse)
  have h2 := List.reverse_suffix.mpr h
  rwa [List.reverse_reverse] at h2

theorem held_suffix (b : Buffering) (p : String) : (b.held p).data <:+ p.data := by
  cases b
  · exact List.nil_suffix
  · exact afterLastNewline_suffix _
  · exact List.suffix_refl _

theorem handed_append_held (b : Buffering) (p : String) : b.handed p ++ b.held p = p := by
  obtain ⟨u, hu⟩ := held_suffix b p
  apply String.ext
  rw [String.data_append]
  unfold Buffering.handed
  simp only
  rw [← hu]
  simp

theorem held_unbuffered (p : String) : Buffering.unbuffered.held p = "" := rfl

theorem handed_of_held_empty (b : Buffering) (p : String) (h : b.held p = "") :
    b.handed p = p := by
  have e := handed_append_held b p
  rw [h] at e
  rw [String.append_empty] at e
  exact e

theorem handed_of_held_all (b : Buffering) (p : String) (h : b.held p = p) :
    b.handed p = "" := by
  apply String.ext
  unfold Buffering.handed
  rw [h]
  simp

theorem held_full (p : String) : Buffering.full.held p = p := rfl

theorem handed_full (p : String) : Buffering.full.handed p = "" :=
  handed_of_held_all _ _ rfl

theorem handed_unbuffered (p : String) : Buffering.unbuffered.handed p = p :=
  handed_of_held_empty _ _ rfl

theorem held_line_newline (a : String) : Buffering.line.held (a ++ "\n") = "" := by
  apply String.ext
  have h := afterLastNewline_split a.data [] (List.not_mem_nil _)
  simpa [Buffering.held, String.data_append] using h

theorem handed_line_newline (a : String) : Buffering.line.handed (a ++ "\n") = a ++ "\n" :=
  handed_of_held_empty _ _ (held_line_newline a)

theorem held_line_none (p : String) (hp : '\n' ∉ p.data) : Buffering.line.held p = p := by
  apply String.ext
  exact afterLastNewline_none p.data hp

theorem handed_line_none (p : String) (hp : '\n' ∉ p.data) : Buffering.line.handed p = "" :=
  handed_of_held_all _ _ (held_line_none p hp)

theorem product_no_newline (r : Int) : '\n' ∉ ("2 x 6 = " ++ showInt r).data := by
  rw [String.data_append, List.mem_append, not_or]
  exact ⟨by decide, showInt_no_newline r⟩

/-- When the mode is not `full`, a one-line text leaves nothing in the buffer. -/
theorem held_oneLine (b : Buffering) (hb : b ≠ Buffering.full) (s : String)
    (h : isOneLine s = true) : b.held s = "" := by
  cases b
  · rfl
  · have e := (isOneLine_split s h).2
    rw [e]
    exact held_line_newline _
  · exact absurd rfl hb


/-! ## What a run leaves behind -/

theorem events_eq (F : Foreign) (ord : EvalOrder) (cm hm : Buffering) (argc : Int)
    (argv : List String) :
    events F ord cm hm argc argv
        = [Event.hs_init argc argv, Event.write "Hello from C++\n", Event.helloFromHaskell,
            Event.write "2 x 6 = ", Event.timesSix 2, Event.write (showInt (F.timesSix 2)),
            Event.write "\n", Event.hs_exit]
      ∨ events F ord cm hm argc argv
        = [Event.hs_init argc argv, Event.write "Hello from C++\n", Event.helloFromHaskell,
            Event.timesSix 2, Event.write "2 x 6 = ", Event.write (showInt (F.timesSix 2)),
            Event.write "\n", Event.hs_exit] := by
  cases ord
  · left
    simp [events, run, main, atExit, World.start, call_hs_init, cout, call_helloFromHaskell,
      productStatement, call_timesSix, call_hs_exit]
  · right
    simp [events, run, main, atExit, World.start, call_hs_init, cout, call_helloFromHaskell,
      productStatement, call_timesSix, call_hs_exit]

theorem output_full (F : Foreign) (ord : EvalOrder) (hm : Buffering) (argc : Int)
    (argv : List String) :
    output F ord Buffering.full hm argc argv
      = F.helloFromHaskell
          ++ ("Hello from C++\n" ++ ("2 x 6 = " ++ (showInt (F.timesSix 2) ++ "\n"))) := by
  cases ord <;>
    simp [output, run, main, atExit, World.start, call_hs_init, cout, call_helloFromHaskell,
      productStatement, call_timesSix, call_hs_exit, OutStream.put, held_full, handed_full,
      handed_append_held, String.append_assoc] <;>
    rfl

theorem output_unbuffered (F : Foreign) (ord : EvalOrder) (hm : Buffering) (argc : Int)
    (argv : List String) :
    output F ord Buffering.unbuffered hm argc argv
      = "Hello from C++\n" ++ (hm.handed F.helloFromHaskell
          ++ ("2 x 6 = " ++ (showInt (F.timesSix 2) ++ ("\n" ++ hm.held F.helloFromHaskell)))) := by
  cases ord <;>
    simp [output, run, main, atExit, World.start, call_hs_init, cout, call_helloFromHaskell,
      productStatement, call_timesSix, call_hs_exit, OutStream.put, held_unbuffered,
      handed_unbuffered, String.append_assoc]

theorem held_line_greeting : Buffering.line.held "Hello from C++\n" = "" := by decide

theorem handed_line_greeting :
    Buffering.line.handed "Hello from C++\n" = "Hello from C++\n" := by decide

theorem held_line_literal : Buffering.line.held "2 x 6 = " = "2 x 6 = " := by decide

theorem handed_line_literal : Buffering.line.handed "2 x 6 = " = "" := by decide

theorem output_line (F : Foreign) (ord : EvalOrder) (hm : Buffering) (argc : Int)
    (argv : List String) :
    output F ord Buffering.line hm argc argv
      = "Hello from C++\n" ++ (hm.handed F.helloFromHaskell
          ++ ("2 x 6 = " ++ (showInt (F.timesSix 2) ++ ("\n" ++ hm.held F.helloFromHaskell)))) := by
  have h1 := held_line_none _ (product_no_newline (F.timesSix 2))
  have h2 := handed_line_none _ (product_no_newline (F.timesSix 2))
  have h3 := held_line_newline ("2 x 6 = " ++ showInt (F.timesSix 2))
  have h4 := handed_line_newline ("2 x 6 = " ++ showInt (F.timesSix 2))
  cases ord <;>
    simp [output, run, main, atExit, World.start, call_hs_init, cout, call_helloFromHaskell,
      productStatement, call_timesSix, call_hs_exit, OutStream.put, held_line_greeting,
      handed_line_greeting, held_line_literal, handed_line_literal, h1, h2, h3, h4] <;>
    simp only [String.append_assoc]

theorem output_not_full (F : Foreign) (ord : EvalOrder) (cm hm : Buffering) (argc : Int)
    (argv : List String) (hc : cm ≠ Buffering.full) :
    output F ord cm hm argc argv
      = "Hello from C++\n" ++ (hm.handed F.helloFromHaskell
          ++ ("2 x 6 = " ++ (showInt (F.timesSix 2) ++ ("\n" ++ hm.held F.helloFromHaskell)))) := by
  cases cm
  · exact output_unbuffered F ord hm argc argv
  · exact output_line F ord hm argc argv
  · exact absurd rfl hc

/-- With `std::cout` not fully buffered and a foreign stream that keeps nothing of
the greeting back, the text is on the descriptor in the order of the statements. -/
theorem output_in_program_order (F : Foreign) (ord : EvalOrder) (cm hm : Buffering)
    (argc : Int) (argv : List String) (hc : cm ≠ Buffering.full)
    (hh : hm.held F.helloFromHaskell = "") :
    output F ord cm hm argc argv
      = "Hello from C++\n" ++ (F.helloFromHaskell
          ++ ("2 x 6 = " ++ (showInt (F.timesSix 2) ++ "\n"))) := by
  rw [output_not_full F ord cm hm argc argv hc, handed_of_held_empty _ _ hh, hh,
    String.append_empty]

/-- With `std::cout` not fully buffered and a fully buffered foreign stream, the
greeting reaches the descriptor last, when `hs_exit` runs. -/
theorem output_greeting_last (F : Foreign) (ord : EvalOrder) (cm : Buffering)
    (argc : Int) (argv : List String) (hc : cm ≠ Buffering.full) :
    output F ord cm Buffering.full argc argv
      = "Hello from C++\n" ++ ("2 x 6 = " ++ (showInt (F.timesSix 2)
          ++ ("\n" ++ F.helloFromHaskell))) := by
  rw [output_not_full F ord cm _ argc argv hc, handed_full, held_full, String.empty_append]

theorem lines_of_three (s a b c : String) (ha : '\n' ∉ a.data) (hb : '\n' ∉ b.data)
    (hc : '\n' ∉ c.data)
    (h : s.data = a.data ++ '\n' :: (b.data ++ '\n' :: (c.data ++ '\n' :: []))) :
    lines s = [a, b, c] := by
  unfold lines
  rw [h, linesAux_line _ ha, linesAux_line _ hb, linesAux_line _ hc]
  simp [linesAux]

theorem count_of_three (s a b c : String) (ha : '\n' ∉ a.data) (hb : '\n' ∉ b.data)
    (hc : '\n' ∉ c.data)
    (h : s.data = a.data ++ '\n' :: (b.data ++ '\n' :: (c.data ++ '\n' :: []))) :
    s.data.count '\n' = 3 ∧ s.data.getLast? = some '\n' := by
  rw [h]
  constructor
  · simp [List.count_append, List.count_cons, List.count_eq_zero.mpr ha,
      List.count_eq_zero.mpr hb, List.count_eq_zero.mpr hc]
  · have e : a.data ++ '\n' :: (b.data ++ '\n' :: (c.data ++ '\n' :: []))
        = (a.data ++ '\n' :: (b.data ++ '\n' :: c.data)) ++ ['\n'] := by simp
    rw [e]
    exact List.getLast?_concat _

theorem lines_one (l : String) (hl : '\n' ∉ l.data) : lines (l ++ "\n") = [l] := by
  have h1 : (l ++ "\n").data = l.data ++ '\n' :: [] := by
    simp only [String.data_append]
  unfold lines
  rw [h1, linesAux_line _ hl]
  simp [linesAux]

theorem greeting_no_newline : '\n' ∉ "Hello from C++".data := by decide

/-- The shape of the output, line by line, for a one-line greeting: in the order of
the statements when neither stream is fully buffered. -/
theorem data_in_program_order (F : Foreign) (ord : EvalOrder) (cm hm : Buffering)
    (argc : Int) (argv : List String) (h : isOneLine F.helloFromHaskell = true)
    (hc : cm ≠ Buffering.full) (hh : hm ≠ Buffering.full) :
    (output F ord cm hm argc argv).data
      = "Hello from C++".data ++ '\n' :: ((chomp F.helloFromHaskell).data ++ '\n' ::
          (("2 x 6 = " ++ showInt (F.timesSix 2)).data ++ '\n' :: [])) := by
  rw [output_in_program_order F ord cm hm argc argv hc (held_oneLine hm hh _ h)]
  have e := congrArg String.data (isOneLine_split _ h).2
  rw [String.data_append] at e
  simp only [String.data_append]
  rw [e]
  simp

/-- The shape of the output for a one-line greeting when `std::cout` is fully
buffered: the greeting comes first. -/
theorem data_greeting_first (F : Foreign) (ord : EvalOrder) (hm : Buffering)
    (argc : Int) (argv : List String) (h : isOneLine F.helloFromHaskell = true) :
    (output F ord Buffering.full hm argc argv).data
      = (chomp F.helloFromHaskell).data ++ '\n' :: ("Hello from C++".data ++ '\n' ::
          (("2 x 6 = " ++ showInt (F.timesSix 2)).data ++ '\n' :: [])) := by
  rw [output_full F ord hm argc argv]
  have e := congrArg String.data (isOneLine_split _ h).2
  rw [String.data_append] at e
  simp only [String.data_append]
  rw [e]
  simp

/-- The shape of the output for a one-line greeting when only the foreign stream is
fully buffered: the greeting comes last. -/
theorem data_greeting_last (F : Foreign) (ord : EvalOrder) (cm : Buffering)
    (argc : Int) (argv : List String) (h : isOneLine F.helloFromHaskell = true)
    (hc : cm ≠ Buffering.full) :
    (output F ord cm Buffering.full argc argv).data
      = "Hello from C++".data ++ '\n' :: (("2 x 6 = " ++ showInt (F.timesSix 2)).data ++ '\n' ::
          ((chomp F.helloFromHaskell).data ++ '\n' :: [])) := by
  rw [output_greeting_last F ord cm argc argv hc]
  have e := congrArg String.data (isOneLine_split _ h).2
  rw [String.data_append] at e
  simp only [String.data_append]
  rw [e]
  simp

theorem writes_eq (F : Foreign) (ord : EvalOrder) (cm hm : Buffering) (argc : Int)
    (argv : List String) :
    (events F ord cm hm argc argv).filter Event.isWrite
      = [Event.write "Hello from C++\n", Event.write "2 x 6 = ",
          Event.write (showInt (F.timesSix 2)), Event.write "\n"] := by
  rcases events_eq F ord cm hm argc argv with e | e <;> rw [e] <;> rfl

theorem output_contains_product (F : Foreign) (ord : EvalOrder) (cm hm : Buffering)
    (argc : Int) (argv : List String) :
    ∃ pre post : String,
      output F ord cm hm argc argv
        = pre ++ ("2 x 6 = " ++ (showInt (F.timesSix 2) ++ "\n")) ++ post := by
  by_cases hc : cm = Buffering.full
  · subst hc
    refine ⟨F.helloFromHaskell ++ "Hello from C++\n", "", ?_⟩
    rw [output_full]
    simp only [String.append_assoc, String.append_empty]
  · refine ⟨"Hello from C++\n" ++ hm.handed F.helloFromHaskell, hm.held F.helloFromHaskell, ?_⟩
    rw [output_not_full F ord cm hm argc argv hc]
    simp only [String.append_assoc]

theorem lines_in_program_order (F : Foreign) (ord : EvalOrder) (cm hm : Buffering)
    (argc : Int) (argv : List String) (h : isOneLine F.helloFromHaskell = true)
    (hc : cm ≠ Buffering.full) (hh : hm ≠ Buffering.full) :
    lines (output F ord cm hm argc argv)
      = ["Hello from C++", chomp F.helloFromHaskell,
          "2 x 6 = " ++ showInt (F.timesSix 2)] :=
  lines_of_three _ _ _ _ greeting_no_newline (isOneLine_split _ h).1 (product_no_newline _)
    (data_in_program_order F ord cm hm argc argv h hc hh)

theorem lines_greeting_first (F : Foreign) (ord : EvalOrder) (hm : Buffering)
    (argc : Int) (argv : List String) (h : isOneLine F.helloFromHaskell = true) :
    lines (output F ord Buffering.full hm argc argv)
      = [chomp F.helloFromHaskell, "Hello from C++",
          "2 x 6 = " ++ showInt (F.timesSix 2)] :=
  lines_of_three _ _ _ _ (isOneLine_split _ h).1 greeting_no_newline (product_no_newline _)
    (data_greeting_first F ord hm argc argv h)

theorem lines_greeting_last (F : Foreign) (ord : EvalOrder) (cm : Buffering)
    (argc : Int) (argv : List String) (h : isOneLine F.helloFromHaskell = true)
    (hc : cm ≠ Buffering.full) :
    lines (output F ord cm Buffering.full argc argv)
      = ["Hello from C++", "2 x 6 = " ++ showInt (F.timesSix 2),
          chomp F.helloFromHaskell] :=
  lines_of_three _ _ _ _ greeting_no_newline (product_no_newline _) (isOneLine_split _ h).1
    (data_greeting_last F ord cm argc argv h hc)

theorem count_newline_output (F : Foreign) (ord : EvalOrder) (cm hm : Buffering)
    (argc : Int) (argv : List String) (h : isOneLine F.helloFromHaskell = true) :
    (output F ord cm hm argc argv).data.count '\n' = 3 ∧
    (output F ord cm hm argc argv).data.getLast? = some '\n' := by
  by_cases hc : cm = Buffering.full
  · subst hc
    exact count_of_three _ _ _ _ (isOneLine_split _ h).1 greeting_no_newline
      (product_no_newline _) (data_greeting_first F ord hm argc argv h)
  · by_cases hh : hm = Buffering.full
    · subst hh
      exact count_of_three _ _ _ _ greeting_no_newline (product_no_newline _)
        (isOneLine_split _ h).1 (data_greeting_last F ord cm argc argv h hc)
    · exact count_of_three _ _ _ _ greeting_no_newline (isOneLine_split _ h).1
        (product_no_newline _) (data_in_program_order F ord cm hm argc argv h hc hh)

/-- For a one-line greeting, the product line is the third line of the output unless
only the foreign stream is fully buffered. -/
theorem third_line_product (F : Foreign) (ord : EvalOrder) (cm hm : Buffering)
    (argc : Int) (argv : List String) (h : isOneLine F.helloFromHaskell = true)
    (hb : hm = Buffering.full → cm = Buffering.full) :
    (lines (output F ord cm hm argc argv))[2]?
      = some ("2 x 6 = " ++ showInt (F.timesSix 2)) := by
  by_cases hc : cm = Buffering.full
  · subst hc
    rw [lines_greeting_first F ord hm argc argv h]
    rfl
  · have hh : hm ≠ Buffering.full := fun e => hc (hb e)
    rw [lines_in_program_order F ord cm hm argc argv h hc hh]
    rfl

/-! ## The claims -/

/-- C1, counterexample: with both streams fully buffered (standard output not a
terminal) and the one-line greeting `Hello from Haskell`, the first line of the
output is the greeting of `helloFromHaskell`, not `Hello from C++`; and with a
line-buffered `std::cout` and a fully buffered foreign stream the greeting is the
last line. -/
theorem three_lines_in_statement_order_fails_fully_buffered :
    isOneLine sampleForeign.helloFromHaskell = true ∧
    lines (output sampleForeign EvalOrder.leftToRight Buffering.full Buffering.full 1 ["./main"])
      = ["Hello from Haskell", "Hello from C++", "2 x 6 = 12"] ∧
    lines (output sampleForeign EvalOrder.leftToRight Buffering.full Buffering.full 1 ["./main"])
      ≠ ["Hello from C++", "Hello from Haskell", "2 x 6 = 12"] ∧
    lines (output sampleForeign EvalOrder.leftToRight Buffering.line Buffering.full 1 ["./main"])
      = ["Hello from C++", "2 x 6 = 12", "Hello from Haskell"] := by
  decide

/-- C1, amended: for every argument count and vector, either evaluation order and
all buffering modes, when the text `helloFromHaskell` emits is exactly one line, a
run of `main` leaves exactly three lines on standard output (three newline
characters, the last one at the end) and `main` returns 0. The lines are
`Hello from C++`, the greeting line and the line `2 x 6 = ...`, in this order when
neither stream is fully buffered; the greeting line comes first when `std::cout`
is fully buffered, and last when only the foreign stream is. -/
theorem main_writes_three_lines_and_returns_zero (F : Foreign) (ord : EvalOrder)
    (cm hm : Buffering) (argc : Int) (argv : List String)
    (h : isOneLine F.helloFromHaskell = true) :
    (output F ord cm hm argc argv).data.count '\n' = 3 ∧
    (output F ord cm hm argc argv).data.getLast? = some '\n' ∧
    exitStatus F ord cm hm argc argv = 0 ∧
    lines F.helloFromHaskell = [chomp F.helloFromHaskell] ∧
    (cm ≠ Buffering.full → hm ≠ Buffering.full →
      lines (output F ord cm hm argc argv)
        = ["Hello from C++", chomp F.helloFromHaskell,
            "2 x 6 = " ++ showInt (F.timesSix 2)]) ∧
    (cm = Buffering.full →
      lines (output F ord cm hm argc argv)
        = [chomp F.helloFromHaskell, "Hello from C++",
            "2 x 6 = " ++ showInt (F.timesSix 2)]) ∧
    (cm ≠ Buffering.full → hm = Buffering.full →
      lines (output F ord cm hm argc argv)
        = ["Hello from C++", "2 x 6 = " ++ showInt (F.timesSix 2),
            chomp F.helloFromHaskell]) := by
  refine ⟨(count_newline_output F ord cm hm argc argv h).1,
    (count_newline_output F ord cm hm argc argv h).2, rfl, ?_, ?_, ?_, ?_⟩
  · have e := lines_one _ (isOneLine_split _ h).1
    rw [← (isOneLine_split _ h).2] at e
    exact e
  · exact fun hc hh => lines_in_program_order F ord cm hm argc argv h hc hh
  · intro hc
    subst hc
    exact lines_greeting_first F ord hm argc argv h
  · intro hc hh
    subst hh
    exact lines_greeting_last F ord cm argc argv h hc

/-- Witness of C1 (amended) at the sample environment on a terminal: both streams
line-buffered, started as `./main`. -/
theorem main_writes_three_lines_and_returns_zero_witness :
    isOneLine sampleForeign.helloFromHaskell = true ∧
    (output sampleForeign EvalOrder.leftToRight Buffering.line Buffering.line 1
      ["./main"]).data.count '\n' = 3 ∧
    exitStatus sampleForeign EvalOrder.leftToRight Buffering.line Buffering.line 1
      ["./main"] = 0 ∧
    lines (output sampleForeign EvalOrder.leftToRight Buffering.line Buffering.line 1 ["./main"])
      = ["Hello from C++", chomp sampleForeign.helloFromHaskell,
          "2 x 6 = " ++ showInt (sampleForeign.timesSix 2)] :=
  ⟨by decide,
    (main_writes_three_lines_and_returns_zero sampleForeign EvalOrder.leftToRight
      Buffering.line Buffering.line 1 ["./main"] (by decide)).1,
    (main_writes_three_lines_and_returns_zero sampleForeign EvalOrder.leftToRight
      Buffering.line Buffering.line 1 ["./main"] (by decide)).2.2.1,
    (main_writes_three_lines_and_returns_zero sampleForeign EvalOrder.leftToRight
      Buffering.line Buffering.line 1 ["./main"] (by decide)).2.2.2.2.1
      (by decide) (by decide)⟩

/-- C2, counterexample: with `timesSix n = 6 * n` and an empty greeting the output
has two lines and no third one; and with a one-line greeting, an unbuffered
`std::cout` and a fully buffered foreign stream, the third line is the greeting. -/
theorem third_line_is_not_always_the_product :
    (∀ n : Int, silentForeign.timesSix n = 6 * n) ∧
    lines (output silentForeign EvalOrder.leftToRight Buffering.line Buffering.line 1 ["./main"])
      = ["Hello from C++", "2 x 6 = 12"] ∧
    (lines (output silentForeign EvalOrder.leftToRight Buffering.line Buffering.line 1
      ["./main"]))[2]? = none ∧
    (lines (output sampleForeign EvalOrder.leftToRight Buffering.unbuffered Buffering.full 1
      ["./main"]))[2]? = some "Hello from Haskell" :=
  ⟨fun _ => rfl, by decide, by decide, by decide⟩

/-- C2, amended: when `timesSix n = 6 * n` for every integer `n`, what `main` inserts
after its greeting line is `2 x 6 = `, `12` and a newline, and the output contains
`2 x 6 = 12` followed by a newline; this is the third line of the output when the
greeting of `helloFromHaskell` is exactly one line and the foreign stream is fully
buffered only if `std::cout` is too. -/
theorem third_line_is_two_times_six_is_twelve (F : Foreign) (ord : EvalOrder)
    (cm hm : Buffering) (argc : Int) (argv : List String)
    (h : ∀ n : Int, F.timesSix n = 6 * n) :
    (events F ord cm hm argc argv).filter Event.isWrite
      = [Event.write "Hello from C++\n", Event.write "2 x 6 = ", Event.write "12",
          Event.write "\n"] ∧
    (∃ pre post : String, output F ord cm hm argc argv = pre ++ "2 x 6 = 12\n" ++ post) ∧
    (isOneLine F.helloFromHaskell = true → (hm = Buffering.full → cm = Buffering.full) →
      (lines (output F ord cm hm argc argv))[2]? = some "2 x 6 = 12") := by
  have h12 : showInt (F.timesSix 2) = "12" := by rw [h 2]; decide
  refine ⟨?_, ?_, fun h1 hb => ?_⟩
  · rw [writes_eq, h12]
  · obtain ⟨pre, post, e⟩ := output_contains_product F ord cm hm argc argv
    rw [h12] at e
    exact ⟨pre, post, e⟩
  · rw [third_line_product F ord cm hm argc argv h1 hb, h12]
    rfl

/-- Witness of C2 (amended) at the sample environment with standard output
redirected: both streams fully buffered. -/
theorem third_line_is_two_times_six_is_twelve_witness :
    (∀ n : Int, sampleForeign.timesSix n = 6 * n) ∧
    (events sampleForeign EvalOrder.callFirst Buffering.full Buffering.full 3
      ["./main", "a", "b"]).filter Event.isWrite
      = [Event.write "Hello from C++\n", Event.write "2 x 6 = ", Event.write "12",
          Event.write "\n"] ∧
    (lines (output sampleForeign EvalOrder.callFirst Buffering.full Buffering.full 3
      ["./main", "a", "b"]))[2]? = some "2 x 6 = 12" :=
  ⟨fun _ => rfl,
    (third_line_is_two_times_six_is_twelve sampleForeign EvalOrder.callFirst Buffering.full
      Buffering.full 3 ["./main", "a", "b"] (fun _ => rfl)).1,
    (third_line_is_two_times_six_is_twelve sampleForeign EvalOrder.callFirst Buffering.full
      Buffering.full 3 ["./main", "a", "b"] (fun _ => rfl)).2.2 (by decide) (fun _ => rfl)⟩

/-- C3: in every run of `main`, `hs_init` is called exactly once, `hs_exit` is called
exactly once, the call of `hs_init` comes before the call of `hs_exit`, and every
call of `hs_exit` in the trace has a call of `hs_init` before it. -/
theorem hs_init_once_then_hs_exit_once (F : Foreign) (ord : EvalOrder)
    (cm hm : Buffering) (argc : Int) (argv : List String) :
    (events F ord cm hm argc argv).countP Event.isInit = 1 ∧
    (events F ord cm hm argc argv).countP Event.isExit = 1 ∧
    (events F ord cm hm argc argv).findIdx Event.isInit
      < (events F ord cm hm argc argv).findIdx Event.isExit ∧
    (∀ pre post : List Event, events F ord cm hm argc argv = pre ++ Event.hs_exit :: post →
      pre.any Event.isInit = true) := by
  refine ⟨?_, ?_, ?_, ?_⟩
  · rcases events_eq F ord cm hm argc argv with e | e <;> rw [e] <;> rfl
  · rcases events_eq F ord cm hm argc argv with e | e <;> rw [e] <;> rfl
  · rcases events_eq F ord cm hm argc argv with e | e <;> rw [e] <;>
      simp [List.findIdx_cons, Event.isInit, Event.isExit]
  · intro pre post hp
    cases pre with
    | nil =>
      rcases events_eq F ord cm hm argc argv with e | e <;> rw [e] at hp <;> simp at hp
    | cons a pre =>
      rcases events_eq F ord cm hm argc argv with e | e <;> rw [e] at hp <;>
        · simp only [List.cons_append, List.cons.injEq] at hp
          simp [← hp.1, Event.isInit]

/-- Witness of C3 at the sample environment: the one call of `hs_exit` is the last
of the eight events, and the seven events before it hold the call of `hs_init`. -/
theorem hs_init_once_then_hs_exit_once_witness :
    (events sampleForeign EvalOrder.leftToRight Buffering.line Buffering.line 1
      ["./main"]).countP Event.isInit = 1 ∧
    (events sampleForeign EvalOrder.leftToRight Buffering.line Buffering.line 1
      ["./main"]).countP Event.isExit = 1 ∧
    ((events sampleForeign EvalOrder.leftToRight Buffering.line Buffering.line 1
      ["./main"]).take 7).any Event.isInit = true :=
  ⟨(hs_init_once_then_hs_exit_once sampleForeign EvalOrder.leftToRight Buffering.line
      Buffering.line 1 ["./main"]).1,
    (hs_init_once_then_hs_exit_once sampleForeign EvalOrder.leftToRight Buffering.line
      Buffering.line 1 ["./main"]).2.1,
    (hs_init_once_then_hs_exit_once sampleForeign EvalOrder.leftToRight Buffering.line
      Buffering.line 1 ["./main"]).2.2.2
      ((events sampleForeign EvalOrder.leftToRight Buffering.line Buffering.line 1
        ["./main"]).take 7) [] (by decide)⟩

/-- C4, counterexample: with both streams fully buffered, the output of the sample
run has `Hello from C++` as its second line, and the greeting of `helloFromHaskell`
stands before `Hello from C++`, not between it and `2 x 6 = `; and with a
line-buffered `std::cout` and a fully buffered foreign stream the greeting stands
after the product line. -/
theorem greeting_is_not_second_line_fully_buffered :
    sampleForeign.helloFromHaskell = "Hello from Haskell\n" ∧
    output sampleForeign EvalOrder.leftToRight Buffering.full Buffering.full 1 ["./main"]
      = "Hello from Haskell\nHello from C++\n2 x 6 = 12\n" ∧
    (lines (output sampleForeign EvalOrder.leftToRight Buffering.full Buffering.full 1
      ["./main"]))[1]? = some "Hello from C++" ∧
    (lines (output sampleForeign EvalOrder.leftToRight Buffering.full Buffering.full 1
      ["./main"]))[1]? ≠ some "Hello from Haskell" ∧
    output sampleForeign EvalOrder.leftToRight Buffering.line Buffering.full 1 ["./main"]
      = "Hello from C++\n2 x 6 = 12\nHello from Haskell\n" := by
  decide

/-- C4, amended: for every text `s` that `helloFromHaskell` emits, `main` itself
inserts nothing between its greeting line and `2 x 6 = `. When `std::cout` is not
fully buffered and the foreign stream keeps nothing of `s` back, the output is
`Hello from C++`, a newline, then exactly `s`, then `2 x 6 = ...`, and a one-line
`s` is the second line of the output. When `std::cout` is fully buffered, `s` comes
before `Hello from C++` instead. -/
theorem second_line_is_helloFromHaskell_text (F : Foreign) (ord : EvalOrder)
    (cm hm : Buffering) (argc : Int) (argv : List String) (s : String)
    (hs : F.helloFromHaskell = s) :
    (events F ord cm hm argc argv).filter Event.isWrite
      = [Event.write "Hello from C++\n", Event.write "2 x 6 = ",
          Event.write (showInt (F.timesSix 2)), Event.write "\n"] ∧
    (cm ≠ Buffering.full → hm.held s = "" →
      output F ord cm hm argc argv
        = "Hello from C++\n" ++ (s ++ ("2 x 6 = " ++ (showInt (F.timesSix 2) ++ "\n")))) ∧
    (cm = Buffering.full →
      output F ord cm hm argc argv
        = s ++ ("Hello from C++\n" ++ ("2 x 6 = " ++ (showInt (F.timesSix 2) ++ "\n")))) ∧
    (cm ≠ Buffering.full → hm ≠ Buffering.full → isOneLine s = true →
      s = chomp s ++ "\n" ∧ (lines (output F ord cm hm argc argv))[1]? = some (chomp s)) := by
  subst hs
  refine ⟨writes_eq F ord cm hm argc argv, ?_, ?_, ?_⟩
  · exact fun hc hh => output_in_program_order F ord cm hm argc argv hc hh
  · intro hc
    subst hc
    exact output_full F ord hm argc argv
  · intro hc hh h1
    refine ⟨(isOneLine_split _ h1).2, ?_⟩
    rw [lines_in_program_order F ord cm hm argc argv h1 hc hh]
    rfl

/-- Witness of C4 (amended) at the sample environment on a terminal, whose greeting
is `Hello from Haskell`. -/
theorem second_line_is_helloFromHaskell_text_witness :
    sampleForeign.helloFromHaskell = "Hello from Haskell\n" ∧
    output sampleForeign EvalOrder.leftToRight Buffering.line Buffering.line 1 ["./main"]
      = "Hello from C++\n" ++ ("Hello from Haskell\n"
          ++ ("2 x 6 = " ++ (showInt (sampleForeign.timesSix 2) ++ "\n"))) ∧
    (lines (output sampleForeign EvalOrder.leftToRight Buffering.line Buffering.line 1
      ["./main"]))[1]? = some (chomp "Hello from Haskell\n") ∧
    chomp "Hello from Haskell\n" = "Hello from Haskell" :=
  ⟨rfl,
    (second_line_is_helloFromHaskell_text sampleForeign EvalOrder.leftToRight Buffering.line
      Buffering.line 1 ["./main"] "Hello from Haskell\n" rfl).2.1 (by decide) (by decide),
    ((second_line_is_helloFromHaskell_text sampleForeign EvalOrder.leftToRight Buffering.line
      Buffering.line 1 ["./main"] "Hello from Haskell\n" rfl).2.2.2 (by decide) (by decide)
      (by decide)).2,
    by decide⟩

/-- C5: for every argument count and vector, every environment (whatever `timesSix`
returns and whatever `helloFromHaskell` prints), either evaluation order, all
buffering modes and every starting state, `main` returns the exit status 0. -/
theorem exit_status_is_zero (F : Foreign) (ord : EvalOrder) (cm hm : Buffering)
    (argc : Int) (argv : List String) (w : World) :
    (main F ord argc argv w).1 = 0 ∧ exitStatus F ord cm hm argc argv = 0 :=
  ⟨rfl, rfl⟩

/-- C6: the first event of every run is the call of `hs_init`, it is the only call
of `hs_init`, and the argument count and vector it receives are the ones `main`
was started with. -/
theorem hs_init_receives_the_arguments_of_main (F : Foreign) (ord : EvalOrder)
    (cm hm : Buffering) (argc : Int) (argv : List String) :
    (events F ord cm hm argc argv).head? = some (Event.hs_init argc argv) ∧
    (events F ord cm hm argc argv).filter Event.isInit = [Event.hs_init argc argv] := by
  constructor <;> rcases events_eq F ord cm hm argc argv with e | e <;> rw [e] <;> rfl

/-- C7: the calls of the imported functions in a run are exactly `hs_init`,
`helloFromHaskell`, `timesSix 2` and `hs_exit`, in this order: `helloFromHaskell`
and `timesSix` each come after `hs_init` and before `hs_exit`, `helloFromHaskell`
comes before `timesSix`, and no event at all follows `hs_exit`. -/
theorem foreign_calls_inside_the_runtime_bracket (F : Foreign) (ord : EvalOrder)
    (cm hm : Buffering) (argc : Int) (argv : List String) :
    (events F ord cm hm argc argv).filter Event.isForeign
      = [Event.hs_init argc argv, Event.helloFromHaskell, Event.timesSix 2, Event.hs_exit] ∧
    (events F ord cm hm argc argv).findIdx Event.isInit
      < (events F ord cm hm argc argv).findIdx Event.isHello ∧
    (events F ord cm hm argc argv).findIdx Event.isHello
      < (events F ord cm hm argc argv).findIdx Event.isTimesSix ∧
    (events F ord cm hm argc argv).findIdx Event.isTimesSix
      < (events F ord cm hm argc argv).findIdx Event.isExit ∧
    (events F ord cm hm argc argv).drop
      ((events F ord cm hm argc argv).findIdx Event.isExit + 1) = [] := by
  rcases events_eq F ord cm hm argc argv with e | e <;> rw [e] <;>
    simp [List.findIdx_cons, Event.isInit, Event.isExit, Event.isHello, Event.isTimesSix,
      Event.isForeign, Event.isWrite, List.filter]

/-- C8, counterexample: on a terminal, with a greeting of two lines and a `timesSix`
that returns 5, the output has four lines and its third line is the second line of
the greeting, not `2 x 6 = 5`; with an empty greeting and a `timesSix` that
returns 12 the output has no third line; and with a one-line greeting, a
line-buffered `std::cout` and a fully buffered foreign stream the third line is the
greeting. -/
theorem third_line_is_not_the_product_for_two_line_greeting :
    twoLineForeign.timesSix 2 = 5 ∧
    lines (output twoLineForeign EvalOrder.leftToRight Buffering.line Buffering.line 1
      ["./main"]) = ["Hello from C++", "Hello", "from Haskell", "2 x 6 = 5"] ∧
    (lines (output twoLineForeign EvalOrder.leftToRight Buffering.line Buffering.line 1
      ["./main"]))[2]? ≠ some ("2 x 6 = " ++ showInt 5) ∧
    silentForeign.timesSix 2 = 12 ∧
    (lines (output silentForeign EvalOrder.callFirst Buffering.full Buffering.full 1
      ["./main"]))[2]? = none ∧
    (lines (output negativeForeign EvalOrder.callFirst Buffering.line Buffering.full 1
      ["./main"]))[2]? = some "Hello from Haskell" :=
  ⟨rfl, by decide, by decide, rfl, by decide, by decide⟩

/-- C8, amended: `main` calls `timesSix` exactly once, with the argument 2, and for
every integer `r` this call returns, what `main` inserts after its greeting line
is the fixed text `2 x 6 = `, then the decimal rendering of `r` (which holds no
newline and reads back as `r`), then a newline, and the output contains these
three together; they are the third line of the output when the greeting of
`helloFromHaskell` is exactly one line and the foreign stream is fully buffered
only if `std::cout` is too. -/
theorem timesSix_called_once_with_two_and_result_printed (F : Foreign) (ord : EvalOrder)
    (cm hm : Buffering) (argc : Int) (argv : List String) (r : Int)
    (hr : F.timesSix 2 = r) :
    (events F ord cm hm argc argv).filter Event.isTimesSix = [Event.timesSix 2] ∧
    (events F ord cm hm argc argv).filter Event.isWrite
      = [Event.write "Hello from C++\n", Event.write "2 x 6 = ", Event.write (showInt r),
          Event.write "\n"] ∧
    '\n' ∉ ("2 x 6 = " ++ showInt r).data ∧
    readInt (showInt r) = r ∧
    (∃ pre post : String,
      output F ord cm hm argc argv = pre ++ ("2 x 6 = " ++ (showInt r ++ "\n")) ++ post) ∧
    (isOneLine F.helloFromHaskell = true → (hm = Buffering.full → cm = Buffering.full) →
      (lines (output F ord cm hm argc argv))[2]? = some ("2 x 6 = " ++ showInt r)) := by
  subst hr
  refine ⟨?_, writes_eq F ord cm hm argc argv, product_no_newline _, readInt_showInt _,
    output_contains_product F ord cm hm argc argv,
    fun h1 hb => third_line_product F ord cm hm argc argv h1 hb⟩
  rcases events_eq F ord cm hm argc argv with e | e <;> rw [e] <;> rfl

/-- Witness of C8 (amended) at an environment whose `timesSix` returns `-7`, with
standard output redirected. -/
theorem timesSix_called_once_with_two_and_result_printed_witness :
    negativeForeign.timesSix 2 = -7 ∧
    (events negativeForeign EvalOrder.leftToRight Buffering.full Buffering.full 1
      ["./main"]).filter Event.isTimesSix = [Event.timesSix 2] ∧
    (lines (output negativeForeign EvalOrder.leftToRight Buffering.full Buffering.full 1
      ["./main"]))[2]? = some ("2 x 6 = " ++ showInt (-7)) ∧
    "2 x 6 = " ++ showInt (-7) = "2 x 6 = -7" :=
  ⟨rfl,
    (timesSix_called_once_with_two_and_result_printed negativeForeign EvalOrder.leftToRight
      Buffering.full Buffering.full 1 ["./main"] (-7) rfl).1,
    (timesSix_called_once_with_two_and_result_printed negativeForeign EvalOrder.leftToRight
      Buffering.full Buffering.full 1 ["./main"] (-7) rfl).2.2.2.2.2 (by decide)
      (fun _ => rfl),
    by decide⟩

end Cpphs
